import Mathlib

/-!
Verification of the OSM → Scratch coordinate converter (src/app.py).

The program's real arithmetic is modelled over ℚ; Python's
round(x, n) is modelled as rounding x·10^n to the nearest integer.
Pure functions of the source are translated one-to-one; the Streamlit
button handler is modelled as a pure pipeline over an abstract fetch
result, since its only effect relevant to the claims is which error
path (if any) it takes before producing the two tables.
-/

namespace OsmScratch

/-- width of the Scratch stage in logical units (src/app.py line 20). -/
def SCRATCH_X_MIN : ℚ := -240

/-- src/app.py line 21. -/
def SCRATCH_X_MAX : ℚ := 240

/-- src/app.py line 22. -/
def SCRATCH_Y_MIN : ℚ := -180

/-- src/app.py line 23. -/
def SCRATCH_Y_MAX : ℚ := 180

/-- src/app.py line 26: resource cap on node count. -/
def MAX_NODES : ℕ := 5000

/-- src/app.py line 27: resource cap on edge count. -/
def MAX_EDGES : ℕ := 15000

/-- Python round(x, 2): round to 2 decimal digits. -/
def round2 (q : ℚ) : ℚ := ((round (100 * q) : ℤ) : ℚ) / 100

/-- Python round(x, 6): round to 6 decimal digits (used for Latitude/Longitude columns). -/
def round6 (q : ℚ) : ℚ := ((round (1000000 * q) : ℤ) : ℚ) / 1000000

/-- latlon_to_scratch (src/app.py lines 120-142): convert latitude/longitude to
Scratch coordinates for the bounds tuple (north, south, east, west). -/
def latlon_to_scratch (lat lon : ℚ) (bounds : ℚ × ℚ × ℚ × ℚ) : ℚ × ℚ :=
  let north := bounds.1
  let south := bounds.2.1
  let east := bounds.2.2.1
  let west := bounds.2.2.2
  let x_norm := if east - west ≠ 0 then (lon - west) / (east - west) else 1/2
  let y_norm := if north - south ≠ 0 then (north - lat) / (north - south) else 1/2
  let x_scratch := SCRATCH_X_MIN + x_norm * (SCRATCH_X_MAX - SCRATCH_X_MIN)
  let y_scratch := SCRATCH_Y_MIN + y_norm * (SCRATCH_Y_MAX - SCRATCH_Y_MIN)
  (round2 x_scratch, round2 y_scratch)

example : latlon_to_scratch (1/2) 5 (1, 0, 10, 0) = (0, 0) := by
  simp only [latlon_to_scratch, round2]
  norm_num [round_eq, SCRATCH_X_MIN, SCRATCH_X_MAX, SCRATCH_Y_MIN, SCRATCH_Y_MAX]

/-- C1: for east ≠ west and north ≠ south, latlon_to_scratch returns exactly the
spec formula: x = xMin + xNorm·(xMax − xMin) and y = yMin + yNorm·(yMax − yMin)
with xNorm = (lon − west)/(east − west), yNorm = (north − lat)/(north − south),
each rounded to 2 decimal places; moreover the latitude axis is inverted: for a
valid box (south < north), a larger latitude gives a strictly smaller yNorm. -/
theorem c1_normalization_formula (lat lon north south east west : ℚ)
    (he : east ≠ west) (hn : north ≠ south) :
    latlon_to_scratch lat lon (north, south, east, west) =
      (round2 (SCRATCH_X_MIN + (lon - west) / (east - west) * (SCRATCH_X_MAX - SCRATCH_X_MIN)),
       round2 (SCRATCH_Y_MIN + (north - lat) / (north - south) * (SCRATCH_Y_MAX - SCRATCH_Y_MIN)))
    ∧ (∀ lat1 lat2 : ℚ, south < north → lat1 < lat2 →
        (north - lat2) / (north - south) < (north - lat1) / (north - south)) := by
  constructor
  · simp only [latlon_to_scratch, if_pos (sub_ne_zero.mpr he), if_pos (sub_ne_zero.mpr hn)]
  · intro lat1 lat2 hsn hlt
    have hpos : (0 : ℚ) < north - south := sub_pos.mpr hsn
    gcongr

/-- C1 witness at a concrete input. -/
theorem c1_normalization_formula_witness :
    ((10 : ℚ) ≠ 0 ∧ (1 : ℚ) ≠ 0) ∧
      latlon_to_scratch (1/2) 5 (1, 0, 10, 0) =
        (round2 (SCRATCH_X_MIN + ((5 : ℚ) - 0) / (10 - 0) * (SCRATCH_X_MAX - SCRATCH_X_MIN)),
         round2 (SCRATCH_Y_MIN + ((1 : ℚ) - 1/2) / (1 - 0) * (SCRATCH_Y_MAX - SCRATCH_Y_MIN))) :=
  ⟨⟨by norm_num, by norm_num⟩,
    (c1_normalization_formula (1/2) 5 1 0 10 0 (by norm_num) (by norm_num)).1⟩

/-- C2: for a valid box (south < north, west < east), the northwest corner
(lat = north, lon = west) maps exactly to (xMin, yMin) = (-240, -180) and the
southeast corner (lat = south, lon = east) maps exactly to (xMax, yMax) = (240, 180). -/
theorem c2_corner_mapping (north south east west : ℚ)
    (hns : south < north) (hew : west < east) :
    latlon_to_scratch north west (north, south, east, west) = (SCRATCH_X_MIN, SCRATCH_Y_MIN)
    ∧ latlon_to_scratch south east (north, south, east, west) = (SCRATCH_X_MAX, SCRATCH_Y_MAX) := by
  have he : east - west ≠ 0 := sub_ne_zero.mpr hew.ne'
  have hn : north - south ≠ 0 := sub_ne_zero.mpr hns.ne'
  constructor
  · simp only [latlon_to_scratch, if_pos he, if_pos hn, sub_self, zero_div, zero_mul, add_zero]
    norm_num [round2, round_eq, SCRATCH_X_MIN, SCRATCH_Y_MIN]
  · simp only [latlon_to_scratch, if_pos he, if_pos hn, div_self he, div_self hn, one_mul]
    norm_num [round2, round_eq, SCRATCH_X_MIN, SCRATCH_X_MAX, SCRATCH_Y_MIN, SCRATCH_Y_MAX]

/-- C2 witness at a concrete valid box. -/
theorem c2_corner_mapping_witness :
    ((0 : ℚ) < 1 ∧ (0 : ℚ) < 10) ∧
      (latlon_to_scratch 1 0 (1, 0, 10, 0) = (SCRATCH_X_MIN, SCRATCH_Y_MIN)
       ∧ latlon_to_scratch 0 10 (1, 0, 10, 0) = (SCRATCH_X_MAX, SCRATCH_Y_MAX)) :=
  ⟨⟨by norm_num, by norm_num⟩, c2_corner_mapping 1 0 10 0 (by norm_num) (by norm_num)⟩

/-- C5: on a degenerate axis (east = west, resp. north = south) the normalized
value is substituted with 1/2 instead of dividing by zero, so the output
coordinate on that axis is the canvas midpoint; the function is total, so no
error is raised. -/
theorem c5_degenerate_midpoint (lat lon north south east west : ℚ) :
    (east = west →
      (latlon_to_scratch lat lon (north, south, east, west)).1 =
        (SCRATCH_X_MIN + SCRATCH_X_MAX) / 2)
    ∧ (north = south →
      (latlon_to_scratch lat lon (north, south, east, west)).2 =
        (SCRATCH_Y_MIN + SCRATCH_Y_MAX) / 2) := by
  constructor
  · intro h
    simp only [latlon_to_scratch, h, sub_self]
    norm_num [round2, round_eq, SCRATCH_X_MIN, SCRATCH_X_MAX]
  · intro h
    simp only [latlon_to_scratch, h, sub_self]
    norm_num [round2, round_eq, SCRATCH_Y_MIN, SCRATCH_Y_MAX]

/-- C5 witness at a concrete degenerate box. -/
theorem c5_degenerate_midpoint_witness :
    (latlon_to_scratch 3 7 (5, 5, 4, 4)).1 = (SCRATCH_X_MIN + SCRATCH_X_MAX) / 2
    ∧ (latlon_to_scratch 3 7 (5, 5, 4, 4)).2 = (SCRATCH_Y_MIN + SCRATCH_Y_MAX) / 2 :=
  ⟨(c5_degenerate_midpoint 3 7 5 5 4 4).1 rfl, (c5_degenerate_midpoint 3 7 5 5 4 4).2 rfl⟩

/-- round2 is monotone. -/
theorem round2_le_round2 {a b : ℚ} (h : a ≤ b) : round2 a ≤ round2 b := by
  unfold round2
  gcongr
  rw [round_eq, round_eq]
  exact_mod_cast Int.floor_le_floor (by linarith)

/-- round2 fixes 240. -/
theorem round2_240 : round2 (240 : ℚ) = 240 := by norm_num [round2, round_eq]

/-- round2 fixes -240. -/
theorem round2_neg_240 : round2 (-240 : ℚ) = -240 := by norm_num [round2, round_eq]

/-- round2 fixes 180. -/
theorem round2_180 : round2 (180 : ℚ) = 180 := by norm_num [round2, round_eq]

/-- round2 fixes -180. -/
theorem round2_neg_180 : round2 (-180 : ℚ) = -180 := by norm_num [round2, round_eq]

/-- C6 counterexample: the point (lat 1/2, lon 100 + 1/10000) lies strictly
outside the box (north 1, south 0, east 100, west 0) since its longitude exceeds
east, yet its CanvasPoint is (240, 0), which is inside the canvas range
[-240, 240] × [-180, 180]: the 2-decimal rounding pulls the coordinate back onto
the boundary, so an outside point does not always produce an outside CanvasPoint. -/
theorem c6_counterexample :
    (100 : ℚ) < 100 + 1/10000
    ∧ latlon_to_scratch (1/2) (100 + 1/10000) (1, 0, 100, 0) = (240, 0)
    ∧ ((-240 : ℚ) ≤ 240 ∧ (240 : ℚ) ≤ 240 ∧ (-180 : ℚ) ≤ 0 ∧ (0 : ℚ) ≤ 180) := by
  refine ⟨by norm_num, ?_, by norm_num⟩
  simp only [latlon_to_scratch]
  norm_num [round2, round_eq, SCRATCH_X_MIN, SCRATCH_X_MAX, SCRATCH_Y_MIN, SCRATCH_Y_MAX]

/-- C6 amended: the output is always rounded to exactly 2 decimal digits (both
coordinates are integer multiples of 1/100) and no clamping is performed: for a
point strictly outside a valid box, the unrounded coordinate on the offending
axis lies strictly outside the canvas range, and the rounded output lies outside
or exactly on the canvas boundary (rounding may pull it back onto the boundary,
but never strictly inside). -/
theorem c6_amended_rounding_no_clamp (lat lon north south east west : ℚ)
    (hns : south < north) (hew : west < east) :
    (∃ a b : ℤ, latlon_to_scratch lat lon (north, south, east, west) = ((a : ℚ) / 100, (b : ℚ) / 100))
    ∧ (east < lon →
        SCRATCH_X_MAX <
          SCRATCH_X_MIN + (lon - west) / (east - west) * (SCRATCH_X_MAX - SCRATCH_X_MIN)
        ∧ SCRATCH_X_MAX ≤ (latlon_to_scratch lat lon (north, south, east, west)).1)
    ∧ (lon < west →
        SCRATCH_X_MIN + (lon - west) / (east - west) * (SCRATCH_X_MAX - SCRATCH_X_MIN)
          < SCRATCH_X_MIN
        ∧ (latlon_to_scratch lat lon (north, south, east, west)).1 ≤ SCRATCH_X_MIN)
    ∧ (lat < south →
        SCRATCH_Y_MAX <
          SCRATCH_Y_MIN + (north - lat) / (north - south) * (SCRATCH_Y_MAX - SCRATCH_Y_MIN)
        ∧ SCRATCH_Y_MAX ≤ (latlon_to_scratch lat lon (north, south, east, west)).2)
    ∧ (north < lat →
        SCRATCH_Y_MIN + (north - lat) / (north - south) * (SCRATCH_Y_MAX - SCRATCH_Y_MIN)
          < SCRATCH_Y_MIN
        ∧ (latlon_to_scratch lat lon (north, south, east, west)).2 ≤ SCRATCH_Y_MIN) := by
  have he : east - west ≠ 0 := sub_ne_zero.mpr hew.ne'
  have hn : north - south ≠ 0 := sub_ne_zero.mpr hns.ne'
  have hepos : (0 : ℚ) < east - west := sub_pos.mpr hew
  have hnpos : (0 : ℚ) < north - south := sub_pos.mpr hns
  have hx : (latlon_to_scratch lat lon (north, south, east, west)).1 =
      round2 (SCRATCH_X_MIN + (lon - west) / (east - west) * (SCRATCH_X_MAX - SCRATCH_X_MIN)) := by
    simp only [latlon_to_scratch, if_pos he, if_pos hn]
  have hy : (latlon_to_scratch lat lon (north, south, east, west)).2 =
      round2 (SCRATCH_Y_MIN + (north - lat) / (north - south) * (SCRATCH_Y_MAX - SCRATCH_Y_MIN)) := by
    simp only [latlon_to_scratch, if_pos he, if_pos hn]
  refine ⟨⟨_, _, rfl⟩, ?_, ?_, ?_, ?_⟩
  · intro h
    have ht : (1 : ℚ) < (lon - west) / (east - west) :=
      (one_lt_div hepos).mpr (by linarith)
    have hraw : SCRATCH_X_MAX <
        SCRATCH_X_MIN + (lon - west) / (east - west) * (SCRATCH_X_MAX - SCRATCH_X_MIN) := by
      simp only [SCRATCH_X_MIN, SCRATCH_X_MAX]
      nlinarith
    exact ⟨hraw, by rw [hx]; calc
      SCRATCH_X_MAX = round2 SCRATCH_X_MAX := by rw [SCRATCH_X_MAX, round2_240]
      _ ≤ _ := round2_le_round2 hraw.le⟩
  · intro h
    have ht : (lon - west) / (east - west) < 0 := div_neg_of_neg_of_pos (by linarith) hepos
    have hraw : SCRATCH_X_MIN + (lon - west) / (east - west) * (SCRATCH_X_MAX - SCRATCH_X_MIN)
        < SCRATCH_X_MIN := by
      simp only [SCRATCH_X_MIN, SCRATCH_X_MAX]
      nlinarith
    exact ⟨hraw, by rw [hx]; calc
      round2 _ ≤ round2 SCRATCH_X_MIN := round2_le_round2 hraw.le
      _ = SCRATCH_X_MIN := by rw [SCRATCH_X_MIN, round2_neg_240]⟩
  · intro h
    have ht : (1 : ℚ) < (north - lat) / (north - south) :=
      (one_lt_div hnpos).mpr (by linarith)
    have hraw : SCRATCH_Y_MAX <
        SCRATCH_Y_MIN + (north - lat) / (north - south) * (SCRATCH_Y_MAX - SCRATCH_Y_MIN) := by
      simp only [SCRATCH_Y_MIN, SCRATCH_Y_MAX]
      nlinarith
    exact ⟨hraw, by rw [hy]; calc
      SCRATCH_Y_MAX = round2 SCRATCH_Y_MAX := by rw [SCRATCH_Y_MAX, round2_180]
      _ ≤ _ := round2_le_round2 hraw.le⟩
  · intro h
    have ht : (north - lat) / (north - south) < 0 := div_neg_of_neg_of_pos (by linarith) hnpos
    have hraw : SCRATCH_Y_MIN + (north - lat) / (north - south) * (SCRATCH_Y_MAX - SCRATCH_Y_MIN)
        < SCRATCH_Y_MIN := by
      simp only [SCRATCH_Y_MIN, SCRATCH_Y_MAX]
      nlinarith
    exact ⟨hraw, by rw [hy]; calc
      round2 _ ≤ round2 SCRATCH_Y_MIN := round2_le_round2 hraw.le
      _ = SCRATCH_Y_MIN := by rw [SCRATCH_Y_MIN, round2_neg_180]⟩

/-- C6 amended witness at a concrete input lying east of the box. -/
theorem c6_amended_rounding_no_clamp_witness :
    ((0 : ℚ) < 1 ∧ (0 : ℚ) < 100 ∧ (100 : ℚ) < 101) ∧
      (SCRATCH_X_MAX <
        SCRATCH_X_MIN + ((101 : ℚ) - 0) / (100 - 0) * (SCRATCH_X_MAX - SCRATCH_X_MIN)
       ∧ SCRATCH_X_MAX ≤ (latlon_to_scratch (1/2) 101 (1, 0, 100, 0)).1) :=
  ⟨⟨by norm_num, by norm_num, by norm_num⟩,
    (c6_amended_rounding_no_clamp (1/2) 101 1 0 100 0 (by norm_num) (by norm_num)).2.1
      (by norm_num)⟩

/-- a node of the downloaded graph: G.nodes(data=True) yields (osm_id, data)
with data y the latitude and data x the longitude. -/
structure OsmNode where
  osm_id : ℕ
  y : ℚ
  x : ℚ
deriving DecidableEq

/-- an edge of the downloaded graph: G.edges(data=True) yields (u, v, data); the
data dictionary may or may not carry a length attribute. -/
structure OsmEdge where
  u : ℕ
  v : ℕ
  length : Option ℚ
deriving DecidableEq

/-- the downloaded graph, as consumed by convert_to_scratch_format. -/
structure OsmGraph where
  nodes : List OsmNode
  edges : List OsmEdge
deriving DecidableEq

/-- one row of nodes_df (src/app.py lines 161-168). -/
structure NodeRow where
  ID : ℕ
  X : ℚ
  Y : ℚ
  Latitude : ℚ
  Longitude : ℚ
  OSM_ID : ℕ
deriving DecidableEq

/-- one row of edges_df (src/app.py lines 183-194). -/
structure EdgeRow where
  FromID : ℕ
  ToID : ℕ
  Distance : ℚ
deriving DecidableEq

/-- the node loop of convert_to_scratch_format (src/app.py lines 156-169):
enumerate(G.nodes(data=True), start=1), one NodeRow per node. -/
def nodes_rows_aux (bounds : ℚ × ℚ × ℚ × ℚ) : ℕ → List OsmNode → List NodeRow
  | _, [] => []
  | i, nd :: rest =>
    ⟨i, (latlon_to_scratch nd.y nd.x bounds).1, (latlon_to_scratch nd.y nd.x bounds).2,
      round6 nd.y, round6 nd.x, nd.osm_id⟩ :: nodes_rows_aux bounds (i + 1) rest

/-- nodes_df of convert_to_scratch_format. -/
def nodes_rows (G : OsmGraph) (bounds : ℚ × ℚ × ℚ × ℚ) : List NodeRow :=
  nodes_rows_aux bounds 1 G.nodes

/-- node_id_map built in the node loop (src/app.py line 169): a Python dict, so
on a duplicate osm_id a later write overwrites an earlier one. -/
def node_id_map_aux : ℕ → List OsmNode → ℕ → Option ℕ
  | _, [], _ => none
  | i, nd :: rest, osm =>
    match node_id_map_aux (i + 1) rest osm with
    | some j => some j
    | none => if nd.osm_id = osm then some i else none

/-- node_id_map for a whole graph (ids start at 1). -/
def node_id_map (G : OsmGraph) : ℕ → Option ℕ := node_id_map_aux 1 G.nodes

/-- the edge loop of convert_to_scratch_format (src/app.py lines 176-194): per
edge, a forward row and a reverse row, distance defaulting to 0 when the length
attribute is missing; a lookup of an endpoint that is not a node raises KeyError
in Python, modelled as none. -/
def edge_rows_aux (m : ℕ → Option ℕ) : List OsmEdge → Option (List EdgeRow)
  | [] => some []
  | e :: rest =>
    match m e.u, m e.v, edge_rows_aux m rest with
    | some from_id, some to_id, some tail =>
        some (⟨from_id, to_id, round2 (e.length.getD 0)⟩
          :: ⟨to_id, from_id, round2 (e.length.getD 0)⟩ :: tail)
    | _, _, _ => none

/-- convert_to_scratch_format (src/app.py lines 144-198). -/
def convert_to_scratch_format (G : OsmGraph) (bounds : ℚ × ℚ × ℚ × ℚ) :
    Option (List NodeRow × List EdgeRow) :=
  match edge_rows_aux (node_id_map G) G.edges with
  | some ed => some (nodes_rows G bounds, ed)
  | none => none

/-- the two directed rows that the edge loop emits for one undirected edge. -/
def directed_rows (m : ℕ → Option ℕ) (e : OsmEdge) : List EdgeRow :=
  [⟨(m e.u).getD 0, (m e.v).getD 0, round2 (e.length.getD 0)⟩,
   ⟨(m e.v).getD 0, (m e.u).getD 0, round2 (e.length.getD 0)⟩]

/-- when every endpoint resolves, the edge loop produces exactly the
concatenation of the two directed rows of each edge, in order. -/
theorem edge_rows_aux_eq_some (m : ℕ → Option ℕ) (es : List OsmEdge)
    (h : ∀ e ∈ es, (m e.u).isSome ∧ (m e.v).isSome) :
    edge_rows_aux m es = some (es.flatMap (directed_rows m)) := by
  induction es with
  | nil => simp [edge_rows_aux]
  | cons e rest ih =>
    have he := h e (List.mem_cons_self e rest)
    obtain ⟨fu, hfu⟩ := Option.isSome_iff_exists.mp he.1
    obtain ⟨fv, hfv⟩ := Option.isSome_iff_exists.mp he.2
    have hrest := ih fun x hx => h x (List.mem_cons_of_mem e hx)
    simp [edge_rows_aux, hfu, hfv, hrest, directed_rows]

/-- every id assigned by the node loop lies in [i, i + number of nodes). -/
theorem node_id_map_aux_bounds {i : ℕ} {l : List OsmNode} {osm j : ℕ}
    (h : node_id_map_aux i l osm = some j) : i ≤ j ∧ j < i + l.length := by
  induction l generalizing i with
  | nil => simp [node_id_map_aux] at h
  | cons nd rest ih =>
    simp only [node_id_map_aux] at h
    cases hr : node_id_map_aux (i + 1) rest osm with
    | some j2 =>
      rw [hr] at h
      cases h
      have := ih hr
      simp only [List.length_cons]
      omega
    | none =>
      rw [hr] at h
      by_cases hc : nd.osm_id = osm
      · rw [if_pos hc] at h
        cases h
        simp only [List.length_cons]
        omega
      · rw [if_neg hc] at h
        cases h

/-- the IDs of the node table, in order, are i, i+1, ... . -/
theorem nodes_rows_aux_map_id (bounds : ℚ × ℚ × ℚ × ℚ) (i : ℕ) (l : List OsmNode) :
    (nodes_rows_aux bounds i l).map NodeRow.ID = List.range' i l.length := by
  induction l generalizing i with
  | nil => simp [nodes_rows_aux]
  | cons nd rest ih => simp [nodes_rows_aux, List.range'_succ, ih]

/-- C3: when every edge endpoint is a node of the graph, the conversion
succeeds and emits, for each undirected edge in order, exactly two directed
rows — (fromId, toId) then (toId, fromId) — both carrying the same distance
rounded to 2 decimal places, so the edge table has exactly twice as many rows
as the graph has edges. -/
theorem c3_bidirectional_edge_rows (G : OsmGraph) (bounds : ℚ × ℚ × ℚ × ℚ)
    (h : ∀ e ∈ G.edges, (node_id_map G e.u).isSome ∧ (node_id_map G e.v).isSome) :
    convert_to_scratch_format G bounds
      = some (nodes_rows G bounds, G.edges.flatMap (directed_rows (node_id_map G)))
    ∧ (G.edges.flatMap (directed_rows (node_id_map G))).length = 2 * G.edges.length := by
  constructor
  · rw [convert_to_scratch_format, edge_rows_aux_eq_some (node_id_map G) G.edges h]
  · induction G.edges with
    | nil => simp
    | cons e rest ih =>
      simp only [List.flatMap_cons, List.length_append, List.length_cons, ih, directed_rows,
        List.length_nil]
      omega

/-- C3 witness: a two-node, one-edge graph with a missing length attribute. -/
theorem c3_bidirectional_edge_rows_witness :
    (∀ e ∈ (OsmGraph.mk [⟨10, 1, 2⟩, ⟨20, 3, 4⟩] [⟨10, 20, none⟩]).edges,
      (node_id_map (OsmGraph.mk [⟨10, 1, 2⟩, ⟨20, 3, 4⟩] [⟨10, 20, none⟩]) e.u).isSome
      ∧ (node_id_map (OsmGraph.mk [⟨10, 1, 2⟩, ⟨20, 3, 4⟩] [⟨10, 20, none⟩]) e.v).isSome)
    ∧ ((OsmGraph.mk [⟨10, 1, 2⟩, ⟨20, 3, 4⟩] [⟨10, 20, none⟩]).edges.flatMap
        (directed_rows (node_id_map (OsmGraph.mk [⟨10, 1, 2⟩, ⟨20, 3, 4⟩] [⟨10, 20, none⟩])))).length
      = 2 * (OsmGraph.mk [⟨10, 1, 2⟩, ⟨20, 3, 4⟩] [⟨10, 20, none⟩]).edges.length :=
  ⟨by decide, (c3_bidirectional_edge_rows (OsmGraph.mk [⟨10, 1, 2⟩, ⟨20, 3, 4⟩] [⟨10, 20, none⟩])
      (1, 0, 10, 0) (by decide)).2⟩

/-- round2 of 0 is 0. -/
theorem round2_zero : round2 0 = 0 := by norm_num [round2]

/-- C10: node IDs are assigned sequentially from 1 in enumeration order; when
the conversion succeeds, every FromID and ToID of the emitted edge table is one
of the assigned node IDs; and an edge whose data carries no length attribute is
emitted (in both directions) with distance 0 rather than failing. -/
theorem c10_sequential_ids_closed_table (G : OsmGraph) (bounds : ℚ × ℚ × ℚ × ℚ)
    (h : ∀ e ∈ G.edges, (node_id_map G e.u).isSome ∧ (node_id_map G e.v).isSome) :
    (nodes_rows G bounds).map NodeRow.ID = List.range' 1 G.nodes.length
    ∧ (∀ rows, edge_rows_aux (node_id_map G) G.edges = some rows →
        ∀ r ∈ rows, r.FromID ∈ (nodes_rows G bounds).map NodeRow.ID
          ∧ r.ToID ∈ (nodes_rows G bounds).map NodeRow.ID)
    ∧ (∀ rows, edge_rows_aux (node_id_map G) G.edges = some rows →
        ∀ e ∈ G.edges, e.length = none →
          ∃ fi ti, node_id_map G e.u = some fi ∧ node_id_map G e.v = some ti
            ∧ (⟨fi, ti, 0⟩ : EdgeRow) ∈ rows ∧ (⟨ti, fi, 0⟩ : EdgeRow) ∈ rows) := by
  have hmap := nodes_rows_aux_map_id bounds 1 G.nodes
  have hmem : ∀ {osm j : ℕ}, node_id_map G osm = some j →
      j ∈ (nodes_rows G bounds).map NodeRow.ID := by
    intro osm j hj
    have hb := node_id_map_aux_bounds hj
    rw [nodes_rows, hmap]
    exact List.mem_range'.mpr ⟨j - 1, by omega, by omega⟩
  refine ⟨hmap, ?_, ?_⟩
  · intro rows hrows r hr
    rw [edge_rows_aux_eq_some (node_id_map G) G.edges h] at hrows
    cases hrows
    obtain ⟨e, he, hre⟩ := List.mem_flatMap.mp hr
    obtain ⟨fu, hfu⟩ := Option.isSome_iff_exists.mp (h e he).1
    obtain ⟨fv, hfv⟩ := Option.isSome_iff_exists.mp (h e he).2
    simp only [directed_rows, hfu, hfv, Option.getD_some, List.mem_cons,
      List.not_mem_nil, or_false] at hre
    rcases hre with hre | hre
    · subst hre
      exact ⟨hmem hfu, hmem hfv⟩
    · subst hre
      exact ⟨hmem hfv, hmem hfu⟩
  · intro rows hrows e he hlen
    rw [edge_rows_aux_eq_some (node_id_map G) G.edges h] at hrows
    cases hrows
    obtain ⟨fu, hfu⟩ := Option.isSome_iff_exists.mp (h e he).1
    obtain ⟨fv, hfv⟩ := Option.isSome_iff_exists.mp (h e he).2
    refine ⟨fu, fv, hfu, hfv, ?_, ?_⟩ <;>
      exact List.mem_flatMap.mpr ⟨e, he,
        by simp [directed_rows, hfu, hfv, hlen, round2_zero]⟩

/-- C10 witness: a two-node graph with one length-less edge. -/
theorem c10_sequential_ids_closed_table_witness :
    (∀ e ∈ (OsmGraph.mk [⟨10, 1, 2⟩, ⟨20, 3, 4⟩] [⟨20, 10, none⟩]).edges,
      (node_id_map (OsmGraph.mk [⟨10, 1, 2⟩, ⟨20, 3, 4⟩] [⟨20, 10, none⟩]) e.u).isSome
      ∧ (node_id_map (OsmGraph.mk [⟨10, 1, 2⟩, ⟨20, 3, 4⟩] [⟨20, 10, none⟩]) e.v).isSome)
    ∧ (nodes_rows (OsmGraph.mk [⟨10, 1, 2⟩, ⟨20, 3, 4⟩] [⟨20, 10, none⟩]) (1, 0, 10, 0)).map
        NodeRow.ID
      = List.range' 1 (OsmGraph.mk [⟨10, 1, 2⟩, ⟨20, 3, 4⟩] [⟨20, 10, none⟩]).nodes.length :=
  ⟨by decide,
    (c10_sequential_ids_closed_table (OsmGraph.mk [⟨10, 1, 2⟩, ⟨20, 3, 4⟩] [⟨20, 10, none⟩])
      (1, 0, 10, 0) (by decide)).1⟩

/-- the error exits of the button handler (src/app.py lines 404-455): each is an
st.error message followed by st.stop, plus the outer try/except of line 641. -/
inductive PipelineError where
  | invalidBoundingBox : String → PipelineError
  | areaTooLarge : PipelineError
  | upstreamFetchFailure : PipelineError
  | resourceLimitExceeded : String → PipelineError
  | unexpectedException : PipelineError
deriving DecidableEq

/-- the tabular artifacts the button handler produces on success (the CSV and
image outputs of src/app.py lines 461-485 are all derived from these two). -/
structure PipelineOutput where
  nodes_df : List NodeRow
  edges_df : List EdgeRow
deriving DecidableEq

/-- the button handler (src/app.py lines 404-476) as a pure pipeline. The
download result is an abstract parameter (none models download_osm_data_safe
returning None); the validation checks run before the parameter is consulted,
mirroring the st.stop calls that fire before any network request, and an error
result carries no output tables, mirroring st.stop aborting the script run
before any CSV or image is built. -/
def data_acquisition_pipeline (north south east west : ℚ) (fetch : Option OsmGraph) :
    Except PipelineError PipelineOutput :=
  if north ≤ south then
    .error (.invalidBoundingBox "North latitude must be greater than south latitude")
  else if east ≤ west then
    .error (.invalidBoundingBox "East longitude must be greater than west longitude")
  else if 2 / 1000 < |north - south| * |east - west| then .error .areaTooLarge
  else
    match fetch with
    | none => .error .upstreamFetchFailure
    | some G =>
      if MAX_NODES < G.nodes.length then .error (.resourceLimitExceeded "Too many nodes")
      else if MAX_EDGES < G.edges.length then .error (.resourceLimitExceeded "Too many edges")
      else
        match convert_to_scratch_format G (north, south, east, west) with
        | some nd_ed => .ok ⟨nd_ed.1, nd_ed.2⟩
        | none => .error .unexpectedException

/-- C4: a request whose box has north ≤ south or east ≤ west is rejected with a
human-readable InvalidBoundingBox message; the result is the same for every
possible download outcome (the download is never consulted), it is an error
value rather than an exception, and it carries no CSV or image artifact. -/
theorem c4_invalid_bbox_rejected (north south east west : ℚ) (fetch : Option OsmGraph)
    (h : north ≤ south ∨ east ≤ west) :
    ∃ msg, data_acquisition_pipeline north south east west fetch
      = .error (.invalidBoundingBox msg) := by
  by_cases h1 : north ≤ south
  · exact ⟨"North latitude must be greater than south latitude",
      by simp only [data_acquisition_pipeline, if_pos h1]⟩
  · have h2 : east ≤ west := h.resolve_left h1
    exact ⟨"East longitude must be greater than west longitude",
      by simp only [data_acquisition_pipeline, if_neg h1, if_pos h2]⟩

/-- C4 witness: an inverted latitude range. -/
theorem c4_invalid_bbox_rejected_witness :
    ((0 : ℚ) ≤ 1 ∨ (10 : ℚ) ≤ 0) ∧
      ∃ msg, data_acquisition_pipeline 0 1 10 0 none = .error (.invalidBoundingBox msg) :=
  ⟨Or.inl (by norm_num), c4_invalid_bbox_rejected 0 1 10 0 none (Or.inl (by norm_num))⟩

/-- C7: a request that passes box and area validation but whose downloaded graph
exceeds the node cap (5000) or the edge cap (15000) fails with a resource-limit
error; the error value carries no CSV or image artifact, and the conversion is
never reached. -/
theorem c7_resource_caps (north south east west : ℚ) (G : OsmGraph)
    (hns : south < north) (hew : west < east)
    (harea : |north - south| * |east - west| ≤ 2 / 1000)
    (hcap : MAX_NODES < G.nodes.length ∨ MAX_EDGES < G.edges.length) :
    ∃ msg, data_acquisition_pipeline north south east west (some G)
      = .error (.resourceLimitExceeded msg) := by
  have h1 : ¬north ≤ south := not_le.mpr hns
  have h2 : ¬east ≤ west := not_le.mpr hew
  have h3 : ¬(2 / 1000 < |north - south| * |east - west|) := not_lt.mpr harea
  by_cases hn : MAX_NODES < G.nodes.length
  · exact ⟨"Too many nodes", by simp only [data_acquisition_pipeline, if_neg h1, if_neg h2,
      if_neg h3, if_pos hn]⟩
  · have he : MAX_EDGES < G.edges.length := hcap.resolve_left hn
    exact ⟨"Too many edges", by simp only [data_acquisition_pipeline, if_neg h1, if_neg h2,
      if_neg h3, if_neg hn, if_pos he]⟩

/-- C7 witness: a tiny valid box with a 5001-node graph. -/
theorem c7_resource_caps_witness :
    ((0 : ℚ) < 1/1000 ∧ (0 : ℚ) < 1/1000
      ∧ |(1/1000 : ℚ) - 0| * |(1/1000 : ℚ) - 0| ≤ 2 / 1000
      ∧ (MAX_NODES < (List.replicate 5001 (⟨0, 0, 0⟩ : OsmNode)).length
          ∨ MAX_EDGES < ([] : List OsmEdge).length))
    ∧ ∃ msg, data_acquisition_pipeline (1/1000) 0 (1/1000) 0
        (some ⟨List.replicate 5001 ⟨0, 0, 0⟩, []⟩) = .error (.resourceLimitExceeded msg) :=
  ⟨⟨by norm_num, by norm_num, by rw [sub_zero, abs_of_pos (by norm_num)]; norm_num,
      Or.inl (by rw [List.length_replicate]; norm_num [MAX_NODES])⟩,
    c7_resource_caps (1/1000) 0 (1/1000) 0 ⟨List.replicate 5001 ⟨0, 0, 0⟩, []⟩
      (by norm_num) (by norm_num)
      (by rw [sub_zero, abs_of_pos (by norm_num)]; norm_num)
      (Or.inl (by rw [List.length_replicate]; norm_num [MAX_NODES]))⟩

/-- Modelled from the spec: the Web-Mercator tile-mosaic assembly of the
interactive variant is code of this repository that is not under src/
(src/app.py delegates its basemap to an external tile library), so section 4.2
of the spec is modelled directly. A TileRect is the tile-index rectangle
spanning the four corners of the bounding box at the chosen zoom, as produced
by forward tile addressing. -/
structure TileRect where
  xMinT : ℤ
  xMaxT : ℤ
  yMinT : ℤ
  yMaxT : ℤ
deriving DecidableEq

/-- Modelled from the spec: number of tile columns of the mosaic. -/
def tileCountX (r : TileRect) : ℤ := r.xMaxT - r.xMinT + 1

/-- Modelled from the spec: number of tile rows of the mosaic. -/
def tileCountY (r : TileRect) : ℤ := r.yMaxT - r.yMinT + 1

/-- Modelled from the spec: the cap on the total tile count. -/
def TILE_CAP : ℤ := 100

/-- Modelled from the spec: the failure kinds of mosaic assembly. -/
inductive MosaicError where
  | degenerateRange
  | resourceLimitExceeded
deriving DecidableEq

/-- Modelled from the spec: mosaic assembly. The degenerate-range guard (min
and max tile index equal on either axis) and the resource guard (total tile
count over the cap) are checked, in the order of section 4.2 of the spec,
before any tile is fetched; on success the mosaic is the grid of fetched
tiles pasted by absolute index offset. -/
def assemble_mosaic {α : Type} (r : TileRect) (fetch : ℤ → ℤ → α) :
    Except MosaicError (List (List α)) :=
  if r.xMinT = r.xMaxT ∨ r.yMinT = r.yMaxT then .error .degenerateRange
  else if TILE_CAP < tileCountX r * tileCountY r then .error .resourceLimitExceeded
  else .ok ((List.range (tileCountY r).toNat).map fun j =>
    (List.range (tileCountX r).toNat).map fun i => fetch (r.xMinT + i) (r.yMinT + j))

/-- C8: when the tile rectangle does not collapse on either axis and the total
tile count exceeds the cap of 100 (for example 11 × 11 = 121 tiles), mosaic
assembly fails with the resource-limit error; the result is the same for every
fetch function, so no tile fetch is issued, and no truncated mosaic is built. -/
theorem c8_tile_cap {α : Type} (r : TileRect) (fetch : ℤ → ℤ → α)
    (hx : r.xMinT ≠ r.xMaxT) (hy : r.yMinT ≠ r.yMaxT)
    (hcap : TILE_CAP < tileCountX r * tileCountY r) :
    assemble_mosaic r fetch = .error .resourceLimitExceeded := by
  rw [assemble_mosaic, if_neg (not_or.mpr ⟨hx, hy⟩), if_pos hcap]

/-- C8 witness: an 11 × 11 tile request. -/
theorem c8_tile_cap_witness :
    ((0 : ℤ) ≠ 10 ∧ (0 : ℤ) ≠ 10
      ∧ TILE_CAP < tileCountX ⟨0, 10, 0, 10⟩ * tileCountY ⟨0, 10, 0, 10⟩)
    ∧ assemble_mosaic ⟨0, 10, 0, 10⟩ (fun _ _ => (0 : ℕ)) = .error .resourceLimitExceeded :=
  ⟨⟨by decide, by decide, by decide⟩,
    c8_tile_cap ⟨0, 10, 0, 10⟩ (fun _ _ => (0 : ℕ)) (by decide) (by decide) (by decide)⟩

/-- C9: when forward tile addressing collapses the minimum and maximum tile
index to the same value on either axis (as a 1e-7-degree box does at zoom 10),
mosaic assembly fails with the distinguishable degenerate-range error, for
every fetch function, rather than producing a zero-area crop. -/
theorem c9_degenerate_range {α : Type} (r : TileRect) (fetch : ℤ → ℤ → α)
    (h : r.xMinT = r.xMaxT ∨ r.yMinT = r.yMaxT) :
    assemble_mosaic r fetch = .error .degenerateRange := by
  rw [assemble_mosaic, if_pos h]

/-- C9 witness: a tile rectangle collapsed on both axes. -/
theorem c9_degenerate_range_witness :
    ((909 : ℤ) = 909 ∨ (403 : ℤ) = 403)
    ∧ assemble_mosaic ⟨909, 909, 403, 403⟩ (fun _ _ => (0 : ℕ)) = .error .degenerateRange :=
  ⟨Or.inl rfl, c9_degenerate_range ⟨909, 909, 403, 403⟩ (fun _ _ => (0 : ℕ)) (Or.inl rfl)⟩

end OsmScratch
